import Mathlib

/-!
Verification development for the medicount bot (src/main.py).

Strings are modelled as `List Char` (`Str`); Python `str.lower()` becomes a
character-wise `Char.toLower` map.  MongoDB ObjectIds and Telegram user ids
are modelled as `Nat`.  ISO date strings (`YYYY-MM-DD`) are modelled as `Nat`
day ordinals: comparison of equal-length ISO date strings (as done by the
Mongo `$gte`/`$lte`/`$lt` operators and by `datetime.date` comparison)
coincides with chronological order, and `today + timedelta(days=n)` becomes
`today + n`.  The record collection is a `List Medicine`; the compound unique
index on `(added_by, name_lower)` created by `create_db_indexes` is modelled
by `insert_one` refusing a document whose key already occurs.  Handlers
return the post-call FSM state (`none` mirrors `state.clear()`), the new
store, and the list of user-visible renderings (`Screen`) they perform;
handlers whose source can abort with an uncaught Python exception return
that triple inside `Except PyExn` (an escaping exception leaves the FSM
state and the store as they were and renders nothing).
-/

abbrev Str := List Char

/-- A medicine document as stored by the bot: fields `_id`, `added_by`,
`name`, `name_lower`, `quantity`, `notes`, `exp_date` of `med_doc` in
`_save_new_medicine`. -/
structure Medicine where
  id : Nat
  addedBy : Nat
  name : Str
  nameLower : Str
  quantity : Str
  notes : Str
  expDate : Nat
deriving DecidableEq, Repr

/-- The only storage error the flows handle: pymongo `DuplicateKeyError`. -/
inductive DbError
  | duplicateKey
deriving DecidableEq, Repr

/-- True iff the store already holds a record with the same
`(added_by, name_lower)` key as `doc` — the compound unique index of
`create_db_indexes`. -/
def dupKey (store : List Medicine) (doc : Medicine) : Bool :=
  store.any (fun r => r.addedBy == doc.addedBy && r.nameLower == doc.nameLower)

/-- `med_collection.insert_one` under the unique compound index on
`(added_by, name_lower)`: the insert is atomic and fails with
`DuplicateKeyError` iff the key already exists. -/
def insert_one (store : List Medicine) (doc : Medicine) : Except DbError (List Medicine) :=
  if dupKey store doc then Except.error DbError.duplicateKey
  else Except.ok (store ++ [doc])

/-- The uniqueness invariant of the compound index: no two records share
`(added_by, name_lower)`. -/
def ownerNameUnique (store : List Medicine) : Prop :=
  store.Pairwise (fun a b => ¬(a.addedBy = b.addedBy ∧ a.nameLower = b.nameLower))

/-- FSM states: `AddMedicine.waiting_for_name/quantity/notes/exp_date` and
`EditMedicine.waiting_for_new_value`.  `Option FlowState` with `none`
mirrors "no active state" / `state.clear()`. -/
inductive FlowState
  | waitingName
  | waitingQuantity
  | waitingNotes
  | waitingExpDate
  | waitingNewValue
deriving DecidableEq, Repr

/-- The editable fields of the edit flow (`field_to_edit`). -/
inductive MedField
  | name
  | quantity
  | notes
  | expDate
deriving DecidableEq, Repr

/-- User-visible notices the handlers emit (each corresponds to one distinct
message text in the source). -/
inductive Notice
  | incompleteData
  | duplicateKey
  | notFound
  | invalidDateFormat
  | datePast
  | cancelled
  | noActiveAction
  | stateError
  | validationError
deriving DecidableEq, Repr

/-- A rendering performed by a handler: editing a bound ordinary message,
editing a bound inline message, replying/answering transiently, or showing
one of the main views. -/
inductive Screen
  | noticeAt (n : Notice) (chatId msgId : Nat)
  | noticeInline (n : Notice) (tok : Str)
  | noticeReply (n : Notice)
  | medicineList (chatId msgId : Nat)
  | mainMenuAt (chatId msgId : Nat)
  | mainMenuInline (tok : Str)
  | mainMenuNew
  | detailView (medId : Nat) (chatId msgId : Option Nat) (inlineTok : Option Str)
deriving DecidableEq, Repr

/-- The per-conversation FSM data dict (`state.get_data()`): the accumulated
add-flow values, the edit-flow target, and the bound message identities.
The source occasionally stuffs an inline token into `calendar_message_id`;
since every consumer first checks `inline_message_id` (or an `isinstance`
int test), we keep `calendarMsg` as the ordinary-message id and `inlineMsg`
as the inline token, which is observationally equivalent. -/
structure ConvData where
  name : Option Str := none
  nameLower : Option Str := none
  quantity : Option Str := none
  notes : Option Str := none
  expDate : Option Nat := none
  medId : Option Nat := none
  medName : Option Str := none
  fieldToEdit : Option MedField := none
  promptChat : Option Nat := none
  promptMsg : Option Nat := none
  calendarMsg : Option Nat := none
  inlineMsg : Option Str := none
deriving DecidableEq, Repr

/-- Python truthiness of an optional string: present and non-empty. -/
def filledStr : Option Str → Bool
  | some s => decide (s ≠ [])
  | none => false

/-- The `all([name, name_lower, quantity, notes, exp_date_iso])` test of
`_save_new_medicine` (the ISO date string is never empty once set, so for
`expDate` presence suffices). -/
def add_data_complete (cd : ConvData) : Bool :=
  filledStr cd.name && filledStr cd.nameLower && filledStr cd.quantity &&
    filledStr cd.notes && cd.expDate.isSome

/-- `safe_edit_message(error_text, ...)` guarded by `if chat_id and message_id`. -/
def noticeScreens (n : Notice) (chatId msgId : Option Nat) : List Screen :=
  match chatId, msgId with
  | some c, some m => [Screen.noticeAt n c m]
  | _, _ => []

/-- `_show_user_medicine_list` guarded by `if chat_id and message_id`. -/
def listScreens (chatId msgId : Option Nat) : List Screen :=
  match chatId, msgId with
  | some c, some m => [Screen.medicineList c m]
  | _, _ => []

/-- `_save_new_medicine`: validates that all five accumulated values are
present and non-empty, inserts the document, and handles `DuplicateKeyError`.
Every branch performs `state.clear()` (the returned FSM state is `none`).
`newId` is the ObjectId Mongo assigns on insert. -/
def save_new_medicine (userId newId : Nat) (cd : ConvData) (store : List Medicine)
    (chatId msgId : Option Nat) :
    Option FlowState × List Medicine × List Screen :=
  match cd.name, cd.nameLower, cd.quantity, cd.notes, cd.expDate with
  | some n, some nl, some q, some no, some e =>
    if n = [] ∨ nl = [] ∨ q = [] ∨ no = [] then
      (none, store, noticeScreens Notice.incompleteData chatId msgId)
    else
      match insert_one store ⟨newId, userId, n, nl, q, no, e⟩ with
      | Except.ok s2 => (none, s2, listScreens chatId msgId)
      | Except.error _ => (none, store, noticeScreens Notice.duplicateKey chatId msgId)
  | _, _, _, _, _ => (none, store, noticeScreens Notice.incompleteData chatId msgId)

/-- The `$set` map passed to `update_one` in `_save_edited_medicine`
(`update_data_dict`). -/
structure UpdateMap where
  name : Option Str := none
  nameLower : Option Str := none
  quantity : Option Str := none
  notes : Option Str := none
  expDate : Option Nat := none
deriving DecidableEq, Repr

/-- `if not update_data_dict` — the map sets no field at all. -/
def UpdateMap.isEmptyUpd (u : UpdateMap) : Bool :=
  u.name.isNone && u.nameLower.isNone && u.quantity.isNone && u.notes.isNone &&
    u.expDate.isNone

/-- Apply a `$set` map to a document. -/
def applyUpdate (u : UpdateMap) (m : Medicine) : Medicine :=
  { m with
    name := u.name.getD m.name
    nameLower := u.nameLower.getD m.nameLower
    quantity := u.quantity.getD m.quantity
    notes := u.notes.getD m.notes
    expDate := u.expDate.getD m.expDate }

/-- Mongo `update_one`: update the first document matching `p` with `f`,
returning the new store, `matched_count` and `modified_count`
(`modified_count` is 0 when the `$set` leaves the document unchanged). -/
def updateFirst (l : List Medicine) (p : Medicine → Bool) (f : Medicine → Medicine) :
    List Medicine × Nat × Nat :=
  match l with
  | [] => ([], 0, 0)
  | r :: rs =>
    if p r then (f r :: rs, 1, if f r = r then 0 else 1)
    else
      let rest := updateFirst rs p f
      (r :: rest.1, rest.2.1, rest.2.2)

/-- The `{"_id": object_id, "added_by": user_id}` find query. -/
def findMed (store : List Medicine) (medId userId : Nat) : Option Medicine :=
  store.find? (fun r => r.id == medId && r.addedBy == userId)

/-- A Python exception escaping a handler uncaught: the coroutine aborts,
the FSM state is left as it was, and nothing is rendered. -/
inductive PyExn
  | attributeError
deriving DecidableEq, Repr

instance {e a : Type} [DecidableEq e] [DecidableEq a] : DecidableEq (Except e a) := fun x y =>
  match x, y with
  | Except.ok v, Except.ok w =>
    if h : v = w then Decidable.isTrue (by rw [h]) else Decidable.isFalse (by simp [h])
  | Except.error v, Except.error w =>
    if h : v = w then Decidable.isTrue (by rw [h]) else Decidable.isFalse (by simp [h])
  | Except.ok _, Except.error _ => Decidable.isFalse (by simp)
  | Except.error _, Except.ok _ => Decidable.isFalse (by simp)

/-- `_save_edited_medicine`: first fetches the record's current name —
`find_one` returning `None` makes the unconditional `current_med.get(...)`
raise `AttributeError` (the `if current_med` test sits only inside the
default argument), so a missing record aborts the handler before
`update_one` runs: the FSM state is not cleared and nothing is rendered.
With the record present, the empty-update, changed and not-modified
outcomes all clear the state and render the record's detail view at the
bound identity.  The source's `matched_count == 0` branch (error notice,
then medicine list or main menu) is kept, but with the record just found it
is unreachable in sequential execution — it would need a delete racing in
between `find_one` and `update_one`. -/
def save_edited_medicine (userId medId : Nat) (u : UpdateMap) (store : List Medicine)
    (chatId msgId : Option Nat) (inlineTok : Option Str) :
    Except PyExn (Option FlowState × List Medicine × List Screen) :=
  match findMed store medId userId with
  | none => Except.error PyExn.attributeError
  | some _ =>
    if u.isEmptyUpd then
      Except.ok (none, store, [Screen.detailView medId chatId msgId inlineTok])
    else
      let res := updateFirst store (fun r => r.id == medId && r.addedBy == userId)
        (applyUpdate u)
      if res.2.1 = 0 then
        Except.ok (none, res.1,
          match inlineTok with
          | some t => [Screen.noticeInline Notice.notFound t, Screen.mainMenuInline t]
          | none =>
            match chatId, msgId with
            | some c, some m => [Screen.noticeAt Notice.notFound c m, Screen.medicineList c m]
            | _, _ => [])
      else if res.2.2 ≠ 0 then
        Except.ok (none, res.1, [Screen.detailView medId chatId msgId inlineTok])
      else
        Except.ok (none, res.1, [Screen.detailView medId chatId msgId inlineTok])

/-- Python `str.lower()` (character-wise, which agrees with CPython on the
alphabets the bot handles). -/
def lowerStr (s : Str) : Str := s.map Char.toLower

/-- The per-field validation of `process_new_value_text`.  `parsedDate`
models the outcome of `datetime.strptime(new_value_str, "%Y-%m-%d")` on the
typed text (`none` = `ValueError`).  For `name`, the duplicate check excludes
the record being edited (`"_id": {"$ne": ObjectId(med_id)}`). -/
def validateNewValue (field : MedField) (input : Str) (parsedDate : Option Nat)
    (today : Nat) (userId medId : Nat) (store : List Medicine) : Option UpdateMap :=
  match field with
  | MedField.name =>
    if input = [] then none
    else
      let lower := lowerStr input
      if store.any (fun r => r.nameLower == lower && r.addedBy == userId && !(r.id == medId))
      then none
      else some { name := some input, nameLower := some lower }
  | MedField.quantity => if input = [] then none else some { quantity := some input }
  | MedField.notes => if input = [] then none else some { notes := some input }
  | MedField.expDate =>
    match parsedDate with
    | none => none
    | some d => if d < today then none else some { expDate := some d }

/-- The state-error branch of `process_new_value_text`: clear, reply with an
error, and restore a main menu at whichever identity is bound. -/
def stateErrorResult (cd : ConvData) (store : List Medicine) :
    Option FlowState × List Medicine × List Screen :=
  (none, store,
    Screen.noticeReply Notice.stateError ::
      (match cd.inlineMsg with
       | some t => [Screen.mainMenuInline t]
       | none =>
         match cd.promptChat, cd.calendarMsg <|> cd.promptMsg with
         | some c, some m => [Screen.mainMenuAt c m]
         | _, _ => []))

/-- `process_new_value_text` (edit flow, typed input): guard on the state
data, validate, and on success call `_save_edited_medicine` (whose
`AttributeError` on a missing record propagates uncaught); on a validation
failure reply and stay in `waiting_for_new_value`. -/
def process_new_value_text (userId : Nat) (cd : ConvData) (input : Str)
    (parsedDate : Option Nat) (today : Nat) (store : List Medicine) :
    Except PyExn (Option FlowState × List Medicine × List Screen) :=
  let msgRestore := cd.calendarMsg <|> cd.promptMsg
  match cd.medId, cd.fieldToEdit with
  | some medId, some field =>
    if filledStr cd.medName && ((cd.promptChat.isSome && msgRestore.isSome) || cd.inlineMsg.isSome)
    then
      match validateNewValue field input parsedDate today userId medId store with
      | none =>
        Except.ok (some FlowState.waitingNewValue, store,
          [Screen.noticeReply Notice.validationError])
      | some u => save_edited_medicine userId medId u store cd.promptChat msgRestore cd.inlineMsg
    else Except.ok (stateErrorResult cd store)
  | _, _ => Except.ok (stateErrorResult cd store)

/-- `process_medicine_exp_date_text` (add flow, `waiting_for_exp_date`,
typed input).  `parsedDate` models `strptime(..., "%Y-%m-%d")` (`none` =
`ValueError`).  Parse failure and past dates reply and leave the state and
the store untouched; otherwise the date is stored and `_save_new_medicine`
commits. -/
def process_medicine_exp_date_text (userId newId : Nat) (cd : ConvData)
    (parsedDate : Option Nat) (today : Nat) (store : List Medicine) :
    Option FlowState × ConvData × List Medicine × List Screen :=
  match parsedDate with
  | none => (some FlowState.waitingExpDate, cd, store, [Screen.noticeReply Notice.invalidDateFormat])
  | some d =>
    if d < today then
      (some FlowState.waitingExpDate, cd, store, [Screen.noticeReply Notice.datePast])
    else
      let cd2 := { cd with expDate := some d }
      let r := save_new_medicine userId newId cd2 store cd.promptChat cd.calendarMsg
      (r.1, cd2, r.2.1, r.2.2)

/-- The main-menu restore attempted by the dead branches of
`handle_date_select` (inline identity first, else the bound ordinary
message, else a fresh message). -/
def menuScreens (cd : ConvData) : List Screen :=
  match cd.inlineMsg with
  | some t => [Screen.mainMenuInline t]
  | none =>
    match cd.promptChat, cd.calendarMsg <|> cd.promptMsg with
    | some c, some m => [Screen.mainMenuAt c m]
    | _, _ => [Screen.mainMenuNew]

/-- `handle_date_select` (calendar day selection): a selected date strictly
before today is rejected with a transient notice before anything else is
touched; otherwise the date is recorded in the FSM data and dispatched to
the active flow.  In the edit branch an `AttributeError` raised inside
`_save_edited_medicine` propagates uncaught (the `exp_date` value had
already been written to the FSM data by then). -/
def handle_date_select (userId newId : Nat) (d today : Nat) (fsm : Option FlowState)
    (cd : ConvData) (store : List Medicine) :
    Except PyExn (Option FlowState × ConvData × List Medicine × List Screen) :=
  if d < today then Except.ok (fsm, cd, store, [Screen.noticeReply Notice.datePast])
  else
    let cd2 := { cd with expDate := some d }
    match fsm with
    | some FlowState.waitingExpDate =>
      match cd2.promptChat, cd2.calendarMsg with
      | some c, some m =>
        let r := save_new_medicine userId newId cd2 store (some c) (some m)
        Except.ok (r.1, cd2, r.2.1, r.2.2)
      | _, _ => Except.ok (none, cd2, store, [])
    | some FlowState.waitingNewValue =>
      match cd2.medId with
      | none => Except.ok (none, cd2, store, [])
      | some medId =>
        match cd2.fieldToEdit with
        | some MedField.expDate =>
          match save_edited_medicine userId medId { expDate := some d } store
            cd2.promptChat cd2.calendarMsg cd2.inlineMsg with
          | Except.ok r => Except.ok (r.1, cd2, r.2.1, r.2.2)
          | Except.error e => Except.error e
        | _ => Except.ok (none, cd2, store, menuScreens cd2)
    | _ => Except.ok (none, cd2, store, menuScreens cd2)

/-- `cancel_handler` (the `/cancel` command or the typed cancel keyword):
with an active state it clears the conversation and restores a main menu at
the bound identity (inline token first, else the calendar-or-prompt
message), falling back to a notice plus a fresh main-menu message.  The
record store is never touched. -/
def cancel_handler (fsm : Option FlowState) (cd : ConvData) (store : List Medicine) :
    Option FlowState × List Medicine × List Screen :=
  match fsm with
  | none => (none, store, [Screen.noticeReply Notice.noActiveAction])
  | some _ =>
    let msgEdit := cd.calendarMsg <|> cd.promptMsg
    match cd.inlineMsg with
    | some t => (none, store, [Screen.mainMenuInline t])
    | none =>
      match cd.promptChat, msgEdit with
      | some c, some m => (none, store, [Screen.mainMenuAt c m])
      | _, _ => (none, store, [Screen.noticeReply Notice.cancelled, Screen.mainMenuNew])

/-- `cancel_action_callback` (the inline cancel button): with an active
state it clears the conversation and restores a main menu at the bound
identity; with no identity recorded it just answers.  `cbChat`, `cbMsg`,
`cbInline` are the identity of the message carrying the button, used only
in the no-active-state branch.  The record store is never touched. -/
def cancel_action_callback (fsm : Option FlowState) (cd : ConvData)
    (cbChat cbMsg : Option Nat) (cbInline : Option Str) (store : List Medicine) :
    Option FlowState × List Medicine × List Screen :=
  match fsm with
  | none =>
    (none, store,
      match cbChat, cbMsg with
      | some c, some m => [Screen.mainMenuAt c m]
      | _, _ =>
        match cbInline with
        | some t => [Screen.mainMenuInline t]
        | none => [])
  | some _ =>
    let msgEdit := cd.calendarMsg <|> cd.promptMsg
    match cd.inlineMsg with
    | some t => (none, store, [Screen.mainMenuInline t])
    | none =>
      match cd.promptChat, msgEdit with
      | some c, some m => (none, store, [Screen.mainMenuAt c m])
      | _, _ => (none, store, [Screen.noticeReply Notice.cancelled])

/-- `pat` occurs at the start of `s` (character-by-character). -/
def isPrefixOfStr : Str → Str → Bool
  | [], _ => true
  | _ :: _, [] => false
  | a :: as, b :: bs => a == b && isPrefixOfStr as bs

/-- `needle` occurs as a contiguous substring of `hay` — the semantics of the
escaped, anchored-nowhere `$regex` match used by `inline_search_handler`
(both sides are already lower-case there, so the `i` option is inert). -/
def containsSub (needle hay : Str) : Bool :=
  match hay with
  | [] => needle.isEmpty
  | _ :: rest => isPrefixOfStr needle hay || containsSub needle rest

/-- Fuel-driven worker for `replaceAll` (fuel = length of the text, which
bounds the number of steps since every step consumes at least one
character). -/
def replaceAllGo (pat repl : Str) : Nat → Str → Str
  | 0, s => s
  | _ + 1, [] => []
  | fuel + 1, c :: rest =>
    if isPrefixOfStr pat (c :: rest) then
      repl ++ replaceAllGo pat repl fuel ((c :: rest).drop pat.length)
    else
      c :: replaceAllGo pat repl fuel rest

/-- Python `str.replace(pat, repl)`: replace every occurrence of `pat`
left-to-right, non-overlapping.  Only called with non-empty patterns. -/
def replaceAll (pat repl s : Str) : Str :=
  if pat.isEmpty then s else replaceAllGo pat repl s.length s

/-- The `ru_en` character table of `transliterate` (values are strings;
`ъ`/`ь` map to the empty string). -/
def ruEnMap (c : Char) : Option Str :=
  match c with
  | 'а' => some ['a'] | 'б' => some ['b'] | 'в' => some ['v'] | 'г' => some ['g']
  | 'д' => some ['d'] | 'е' => some ['e'] | 'ё' => some ['y', 'o'] | 'ж' => some ['z', 'h']
  | 'з' => some ['z'] | 'и' => some ['i'] | 'й' => some ['j'] | 'к' => some ['k']
  | 'л' => some ['l'] | 'м' => some ['m'] | 'н' => some ['n'] | 'о' => some ['o']
  | 'п' => some ['p'] | 'р' => some ['r'] | 'с' => some ['s'] | 'т' => some ['t']
  | 'у' => some ['u'] | 'ф' => some ['f'] | 'х' => some ['h'] | 'ц' => some ['t', 's']
  | 'ч' => some ['c', 'h'] | 'ш' => some ['s', 'h'] | 'щ' => some ['s', 'h', 'c', 'h']
  | 'ъ' => some [] | 'ы' => some ['y'] | 'ь' => some [] | 'э' => some ['e']
  | 'ю' => some ['y', 'u'] | 'я' => some ['y', 'a']
  | 'А' => some ['A'] | 'Б' => some ['B'] | 'В' => some ['V'] | 'Г' => some ['G']
  | 'Д' => some ['D'] | 'Е' => some ['E'] | 'Ё' => some ['Y', 'o'] | 'Ж' => some ['Z', 'h']
  | 'З' => some ['Z'] | 'И' => some ['I'] | 'Й' => some ['J'] | 'К' => some ['K']
  | 'Л' => some ['L'] | 'М' => some ['M'] | 'Н' => some ['N'] | 'О' => some ['O']
  | 'П' => some ['P'] | 'Р' => some ['R'] | 'С' => some ['S'] | 'Т' => some ['T']
  | 'У' => some ['U'] | 'Ф' => some ['F'] | 'Х' => some ['H'] | 'Ц' => some ['T', 's']
  | 'Ч' => some ['C', 'h'] | 'Ш' => some ['S', 'h'] | 'Щ' => some ['S', 'h', 'c', 'h']
  | 'Ъ' => some [] | 'Ы' => some ['Y'] | 'Ь' => some [] | 'Э' => some ['E']
  | 'Ю' => some ['Y', 'u'] | 'Я' => some ['Y', 'a']
  | _ => none

/-- The single-character keys of the `en_ru` table of `transliterate` (the
multi-character keys can never equal a single character, so membership tests
and per-character lookups only ever see these). -/
def enRuMap (c : Char) : Option Char :=
  match c with
  | 'a' => some 'а' | 'b' => some 'б' | 'v' => some 'в' | 'g' => some 'г'
  | 'd' => some 'д' | 'e' => some 'е' | 'z' => some 'з' | 'i' => some 'и'
  | 'j' => some 'й' | 'k' => some 'к' | 'l' => some 'л' | 'm' => some 'м'
  | 'n' => some 'н' | 'o' => some 'о' | 'p' => some 'п' | 'r' => some 'р'
  | 's' => some 'с' | 't' => some 'т' | 'u' => some 'у' | 'f' => some 'ф'
  | 'h' => some 'х' | 'y' => some 'ы'
  | 'A' => some 'А' | 'B' => some 'Б' | 'V' => some 'В' | 'G' => some 'Г'
  | 'D' => some 'Д' | 'E' => some 'Е' | 'Z' => some 'З' | 'I' => some 'И'
  | 'J' => some 'Й' | 'K' => some 'К' | 'L' => some 'Л' | 'M' => some 'М'
  | 'N' => some 'Н' | 'O' => some 'О' | 'P' => some 'П' | 'R' => some 'Р'
  | 'S' => some 'С' | 'T' => some 'Т' | 'U' => some 'У' | 'F' => some 'Ф'
  | 'H' => some 'Х' | 'Y' => some 'Ы'
  | _ => none

/-- `any(c in ru_en for c in text)`. -/
def isRuStr (text : Str) : Bool := text.any (fun c => (ruEnMap c).isSome)

/-- `any(c in en_ru for c in text)`. -/
def isEnStr (text : Str) : Bool := text.any (fun c => (enRuMap c).isSome)

/-- The multi-character substitutions applied (in this order, each replacing
all occurrences) before the per-character `en_ru` pass. -/
def enRuSubstitutions : List (Str × Str) :=
  [(['s', 'h', 'c', 'h'], ['щ']), (['S', 'h', 'c', 'h'], ['Щ']),
   (['y', 'o'], ['ё']), (['Y', 'o'], ['Ё']),
   (['z', 'h'], ['ж']), (['Z', 'h'], ['Ж']),
   (['t', 's'], ['ц']), (['T', 's'], ['Ц']),
   (['c', 'h'], ['ч']), (['C', 'h'], ['Ч']),
   (['s', 'h'], ['ш']), (['S', 'h'], ['Ш']),
   (['y', 'u'], ['ю']), (['Y', 'u'], ['Ю']),
   (['y', 'a'], ['я']), (['Y', 'a'], ['Я'])]

/-- `transliterate`: map Cyrillic text to Latin via `ru_en`, Latin text to
Cyrillic via the substitution chain plus `en_ru`, and return text that
contains characters of both tables (or of neither) unchanged. -/
def transliterate (text : Str) : Str :=
  if isRuStr text && !isEnStr text then
    text.foldl (fun acc c => acc ++ (ruEnMap c).getD [c]) []
  else if isEnStr text && !isRuStr text then
    let t := enRuSubstitutions.foldl (fun s pr => replaceAll pr.1 pr.2 s) text
    t.map (fun c => (enRuMap c).getD c)
  else text

/-- The `search_conditions` list of `inline_search_handler`: the normalized
query always, plus the transliterated form when it differs. -/
def search_conditions (queryLower : Str) : List Str :=
  let t := transliterate queryLower
  if t ≠ queryLower then [queryLower, t] else [queryLower]

/-- The per-document match predicate of the inline-search Mongo query:
owned by the requesting user, and `name_lower` contains the original or the
transliterated candidate as a substring. -/
def medicine_matches_query (userId : Nat) (queryLower : Str) (r : Medicine) : Bool :=
  r.addedBy == userId &&
    (search_conditions queryLower).any (fun c => containsSub c r.nameLower)

/-- The set of documents the inline-search query matches (before sorting
and paging). -/
def inline_search_matches (userId : Nat) (queryLower : Str) (store : List Medicine) :
    List Medicine :=
  store.filter (medicine_matches_query userId queryLower)

/-- Code-point lexicographic strict order on strings (Python `str` `<`). -/
def lexLt : Str → Str → Bool
  | [], [] => false
  | [], _ :: _ => true
  | _ :: _, [] => false
  | a :: as, b :: bs => if a < b then true else if a = b then lexLt as bs else false

/-- Code-point lexicographic `≤` on strings. -/
def lexLe (s t : Str) : Bool := s == t || lexLt s t

/-- `lexLt` as a relation. -/
def lexLtRel (a b : Str) : Prop := lexLt a b = true

/-- Ordering of documents by `name_lower` (Mongo `.sort("name_lower")`). -/
def nameLe (a b : Medicine) : Prop := lexLe a.nameLower b.nameLower = true

instance : DecidableRel nameLe :=
  fun a b => inferInstanceAs (Decidable (lexLe a.nameLower b.nameLower = true))

/-- `inline_search_handler`: filter by the query, sort by `name_lower`, and
page with `skip(offset).limit(20)`. -/
def inline_search_results (userId : Nat) (queryLower : Str) (offset : Nat)
    (store : List Medicine) : List Medicine :=
  ((((inline_search_matches userId queryLower store).insertionSort nameLe).drop offset).take 20)

/-- Insert into a strictly `lexLt`-sorted duplicate-free list, keeping it
sorted and duplicate-free. -/
def insertSorted (x : Str) : List Str → List Str
  | [] => [x]
  | y :: ys =>
    if lexLt x y then x :: y :: ys
    else if x = y then y :: ys
    else y :: insertSorted x ys

/-- `sorted(list(set(names)))` of `parse_barcode_html`: the strictly sorted
list of the distinct names (this characterizes Python's result uniquely). -/
def dedupSort : List Str → List Str
  | [] => []
  | x :: xs => insertSorted x (dedupSort xs)

/-- The final step of `parse_barcode_html`: sort and de-duplicate the names
extracted from the lookup page's table rows. -/
def parse_barcode_names (extracted : List Str) : List Str := dedupSort extracted

/-- One step of Python `min(..., key=len)`: keep the accumulator unless the
next element is strictly shorter (so the first minimum wins ties). -/
def pickShorter (acc y : Str) : Str := if y.length < acc.length then y else acc

/-- Python `min(names, key=len)` (`none` on the empty list, which the photo
handler rules out beforehand). -/
def minByLen : List Str → Option Str
  | [] => none
  | x :: xs => some (xs.foldl pickShorter x)

/-- The selection step of `process_medicine_name_photo`:
`min(parsed_names, key=len)`. -/
def photo_select_name (parsedNames : List Str) : Option Str := minByLen parsedNames

/-- `days_threshold` of `daily_reminder`. -/
def days_threshold : Nat := 30

/-- Ordering of documents by `exp_date` (Mongo `.sort("exp_date")`;
ISO-date string order is chronological order). -/
def expLe (a b : Medicine) : Prop := a.expDate ≤ b.expDate

instance : DecidableRel expLe := fun a b => Nat.decLe a.expDate b.expDate

instance : IsTotal Medicine expLe := ⟨fun a b => Nat.le_total a.expDate b.expDate⟩

instance : IsTrans Medicine expLe := ⟨fun _ _ _ h1 h2 => Nat.le_trans h1 h2⟩

/-- The "expiring soon" section of `daily_reminder` for one user: documents
with `today <= exp_date <= today + days_threshold`, sorted by `exp_date`
ascending. -/
def daily_reminder_soon (store : List Medicine) (userId today : Nat) : List Medicine :=
  (store.filter (fun r =>
    r.addedBy == userId && decide (today ≤ r.expDate) &&
      decide (r.expDate ≤ today + days_threshold))).insertionSort expLe

/-- The "expired" section of `daily_reminder` for one user: documents with
`exp_date < today`, sorted by `exp_date` ascending. -/
def daily_reminder_expired (store : List Medicine) (userId today : Nat) : List Medicine :=
  (store.filter (fun r =>
    r.addedBy == userId && decide (r.expDate < today))).insertionSort expLe

/-- `MEDS_PER_PAGE`. -/
def MEDS_PER_PAGE : Nat := 5

/-- The observable pagination content of the list keyboard built by
`get_medicine_list_keyboard`: the sliced records of the requested page and
whether the prev/next controls are rendered. -/
structure ListKeyboard where
  pageItems : List Medicine
  hasPrevButton : Bool
  hasNextButton : Bool
deriving DecidableEq, Repr

/-- `get_medicine_list_keyboard`: slice `[(page-1)*size, page*size)`, show
"prev" iff `current_page > 1` and "next" iff `current_page < total_pages`
with `total_pages = ceil(total/size)`. -/
def get_medicine_list_keyboard (medicines : List Medicine) (currentPage : Nat) : ListKeyboard :=
  let totalPages := (medicines.length + MEDS_PER_PAGE - 1) / MEDS_PER_PAGE
  { pageItems := (medicines.drop ((currentPage - 1) * MEDS_PER_PAGE)).take MEDS_PER_PAGE
    hasPrevButton := decide (1 < currentPage)
    hasNextButton := decide (currentPage < totalPages) }

/-- Conversation data of an edit of the quantity field bound to ordinary
message (1, 2), targeting record id 42. -/
def cexEditCd : ConvData :=
  { medId := some 42, medName := some ['m'], fieldToEdit := some MedField.quantity,
    promptChat := some 1, promptMsg := some 2 }

/-- A stored record used by concrete instantiations. -/
def witMed : Medicine := ⟨1, 7, ['x'], ['x'], ['5'], ['-'], 100⟩

/-- An update that re-submits `witMed`'s current quantity. -/
def witUpd : UpdateMap := { quantity := some ['5'] }

/-- A stored record whose Cyrillic name is reachable from a Latin query only
through the transliteration pass. -/
def aspirinRec : Medicine :=
  ⟨1, 7, ['А', 'с', 'п', 'и', 'р', 'и', 'н'], ['а', 'с', 'п', 'и', 'р', 'и', 'н'],
    ['1'], ['-'], 100⟩

/-- Completed add-flow data whose lowercased name collides with `witMed`. -/
def wcdC1 : ConvData :=
  { name := some ['y'], nameLower := some ['x'], quantity := some ['1'],
    notes := some ['-'], expDate := some 5 }

/-- Records at day 100 (today), 129 (today+29), 131 (today+31) and 99
(yesterday) for the sweep scenario run at today = 100. -/
def med100 : Medicine := ⟨1, 7, ['a'], ['a'], ['1'], ['-'], 100⟩

/-- See `med100`. -/
def med129 : Medicine := ⟨2, 7, ['b'], ['b'], ['1'], ['-'], 129⟩

/-- See `med100`. -/
def med131 : Medicine := ⟨3, 7, ['c'], ['c'], ['1'], ['-'], 131⟩

/-- See `med100`. -/
def med99 : Medicine := ⟨4, 7, ['d'], ['d'], ['1'], ['-'], 99⟩

/-- A record matching `cexEditCd`'s target id 42, owned by user 7. -/
def med42 : Medicine := ⟨42, 7, ['x'], ['x'], ['1'], ['-'], 100⟩

theorem lexLt_irrefl (a : Str) : lexLt a a = false := by
  induction a with
  | nil => rfl
  | cons x xs ih => simp [lexLt, lt_irrefl, ih]

theorem lexLt_trans (a : Str) : ∀ b c : Str,
    lexLt a b = true → lexLt b c = true → lexLt a c = true := by
  induction a with
  | nil =>
    intro b c h1 h2
    cases b with
    | nil => simp [lexLt] at h1
    | cons y ys =>
      cases c with
      | nil => simp [lexLt] at h2
      | cons z zs => simp [lexLt]
  | cons x xs ih =>
    intro b c h1 h2
    cases b with
    | nil => simp [lexLt] at h1
    | cons y ys =>
      cases c with
      | nil => simp [lexLt] at h2
      | cons z zs =>
        by_cases hxy : x < y
        · by_cases hyz : y < z
          · simp [lexLt, lt_trans hxy hyz]
          · by_cases hyez : y = z
            · subst hyez; simp [lexLt, hxy]
            · simp [lexLt, hyz, hyez] at h2
        · by_cases hxey : x = y
          · subst hxey
            simp only [lexLt, lt_irrefl, if_false, if_pos rfl] at h1
            by_cases hxz : x < z
            · simp [lexLt, hxz]
            · by_cases hxez : x = z
              · subst hxez
                simp only [lexLt, lt_irrefl, if_false, if_pos rfl] at h2 ⊢
                exact ih ys zs h1 h2
              · simp [lexLt, hxz, hxez] at h2
          · simp [lexLt, hxy, hxey] at h1

theorem lexLt_trichotomy (a : Str) : ∀ b : Str,
    lexLt a b = true ∨ a = b ∨ lexLt b a = true := by
  induction a with
  | nil =>
    intro b
    cases b with
    | nil => exact Or.inr (Or.inl rfl)
    | cons y ys => exact Or.inl (by simp [lexLt])
  | cons x xs ih =>
    intro b
    cases b with
    | nil => exact Or.inr (Or.inr (by simp [lexLt]))
    | cons y ys =>
      rcases lt_trichotomy x y with hxy | hxy | hxy
      · exact Or.inl (by simp [lexLt, hxy])
      · subst hxy
        rcases ih ys with h | h | h
        · exact Or.inl (by simp [lexLt, lt_irrefl, h])
        · exact Or.inr (Or.inl (by rw [h]))
        · exact Or.inr (Or.inr (by simp [lexLt, lt_irrefl, h]))
      · exact Or.inr (Or.inr (by simp [lexLt, hxy]))

theorem lexLe_refl (a : Str) : lexLe a a = true := by simp [lexLe]

theorem lexLe_of_lexLt {a b : Str} (h : lexLt a b = true) : lexLe a b = true := by
  simp [lexLe, h]

theorem mem_insertSorted (x : Str) (l : List Str) (a : Str) :
    a ∈ insertSorted x l ↔ a = x ∨ a ∈ l := by
  induction l with
  | nil => simp [insertSorted]
  | cons y ys ih =>
    simp only [insertSorted]
    split_ifs with h1 h2
    · simp [List.mem_cons]
    · subst h2
      simp only [List.mem_cons]
      tauto
    · simp only [List.mem_cons, ih]
      tauto

theorem pairwise_insertSorted (x : Str) (l : List Str)
    (h : l.Pairwise lexLtRel) : (insertSorted x l).Pairwise lexLtRel := by
  induction l with
  | nil => simp [insertSorted]
  | cons y ys ih =>
    rcases List.pairwise_cons.mp h with ⟨hy, hys⟩
    simp only [insertSorted]
    split_ifs with h1 h2
    · refine List.pairwise_cons.mpr ⟨?_, h⟩
      intro b hb
      rcases List.mem_cons.mp hb with rfl | hb2
      · exact h1
      · exact lexLt_trans x y b h1 (hy b hb2)
    · exact h
    · refine List.pairwise_cons.mpr ⟨?_, ih hys⟩
      intro b hb
      rcases (mem_insertSorted x ys b).mp hb with rfl | hb2
      · rcases lexLt_trichotomy b y with hby | hby | hby
        · exact absurd hby h1
        · exact absurd hby h2
        · exact hby
      · exact hy b hb2

theorem pairwise_dedupSort (l : List Str) : (dedupSort l).Pairwise lexLtRel := by
  induction l with
  | nil => simp [dedupSort]
  | cons x xs ih => exact pairwise_insertSorted x (dedupSort xs) ih

theorem mem_dedupSort (l : List Str) (a : Str) : a ∈ dedupSort l ↔ a ∈ l := by
  induction l with
  | nil => simp [dedupSort]
  | cons x xs ih =>
    simp only [dedupSort, mem_insertSorted, List.mem_cons, ih]

theorem foldl_pickShorter_spec (ys : List Str) : ∀ acc : Str,
    (∀ y ∈ ys, lexLt acc y = true) → ys.Pairwise lexLtRel →
    ((ys.foldl pickShorter acc = acc) ∨
      (ys.foldl pickShorter acc ∈ ys ∧ (ys.foldl pickShorter acc).length < acc.length)) ∧
    (∀ y ∈ ys, (ys.foldl pickShorter acc).length ≤ y.length) ∧
    (∀ y ∈ ys, y.length = (ys.foldl pickShorter acc).length →
      lexLe (ys.foldl pickShorter acc) y = true) := by
  induction ys with
  | nil =>
    intro acc _ _
    refine ⟨Or.inl rfl, ?_, ?_⟩ <;> intro y hy <;> simp at hy
  | cons y ys2 ih =>
    intro acc hacc hpw
    rcases List.pairwise_cons.mp hpw with ⟨hy2, hpw2⟩
    have hay : lexLt acc y = true := hacc y (List.mem_cons_self y ys2)
    rw [List.foldl_cons]
    by_cases hlen : y.length < acc.length
    · have hstep : pickShorter acc y = y := by simp [pickShorter, hlen]
      rw [hstep]
      have hpre : ∀ z ∈ ys2, lexLt y z = true := fun z hz => hy2 z hz
      rcases ih y hpre hpw2 with ⟨hA, hB, hC⟩
      refine ⟨?_, ?_, ?_⟩
      · rcases hA with hA | ⟨hmem, hlt⟩
        · exact Or.inr ⟨by rw [hA]; exact List.mem_cons_self y ys2, by rw [hA]; exact hlen⟩
        · exact Or.inr ⟨List.mem_cons_of_mem y hmem, lt_trans hlt hlen⟩
      · intro z hz
        rcases List.mem_cons.mp hz with rfl | hz2
        · rcases hA with hA | ⟨_, hlt⟩
          · rw [hA]
          · exact le_of_lt hlt
        · exact hB z hz2
      · intro z hz hzlen
        rcases List.mem_cons.mp hz with rfl | hz2
        · rcases hA with hA | ⟨_, hlt⟩
          · rw [hA]; exact lexLe_refl z
          · omega
        · exact hC z hz2 hzlen
    · have hstep : pickShorter acc y = acc := by simp [pickShorter, hlen]
      rw [hstep]
      have hpre : ∀ z ∈ ys2, lexLt acc z = true :=
        fun z hz => hacc z (List.mem_cons_of_mem y hz)
      rcases ih acc hpre hpw2 with ⟨hA, hB, hC⟩
      refine ⟨?_, ?_, ?_⟩
      · rcases hA with hA | ⟨hmem, hlt⟩
        · exact Or.inl hA
        · exact Or.inr ⟨List.mem_cons_of_mem y hmem, hlt⟩
      · intro z hz
        rcases List.mem_cons.mp hz with rfl | hz2
        · rcases hA with hA | ⟨_, hlt⟩
          · rw [hA]; omega
          · omega
        · exact hB z hz2
      · intro z hz hzlen
        rcases List.mem_cons.mp hz with rfl | hz2
        · rcases hA with hA | ⟨_, hlt⟩
          · rw [hA]; exact lexLe_of_lexLt hay
          · omega
        · exact hC z hz2 hzlen

theorem minByLen_spec (l : List Str) (hpw : l.Pairwise lexLtRel) (hne : l ≠ []) :
    ∃ m, minByLen l = some m ∧ m ∈ l ∧ (∀ x ∈ l, m.length ≤ x.length) ∧
      (∀ x ∈ l, x.length = m.length → lexLe m x = true) := by
  cases l with
  | nil => exact absurd rfl hne
  | cons x xs =>
    rcases List.pairwise_cons.mp hpw with ⟨hx, hpw2⟩
    rcases foldl_pickShorter_spec xs x hx hpw2 with ⟨hA, hB, hC⟩
    refine ⟨xs.foldl pickShorter x, rfl, ?_, ?_, ?_⟩
    · rcases hA with hA | ⟨hmem, _⟩
      · rw [hA]; exact List.mem_cons_self x xs
      · exact List.mem_cons_of_mem x hmem
    · intro z hz
      rcases List.mem_cons.mp hz with rfl | hz2
      · rcases hA with hA | ⟨_, hlt⟩
        · rw [hA]
        · exact le_of_lt hlt
      · exact hB z hz2
    · intro z hz hzlen
      rcases List.mem_cons.mp hz with rfl | hz2
      · rcases hA with hA | ⟨_, hlt⟩
        · rw [hA]; exact lexLe_refl z
        · omega
      · exact hC z hz2 hzlen

theorem updateFirst_matched (l : List Medicine) (p : Medicine → Bool)
    (f : Medicine → Medicine) (r : Medicine) (h : l.find? p = some r) :
    (updateFirst l p f).2.1 = 1 := by
  induction l with
  | nil => simp [List.find?] at h
  | cons a as ih =>
    cases hpa : p a with
    | true => simp [updateFirst, hpa]
    | false =>
      rw [List.find?_cons_of_neg _ (by simp [hpa])] at h
      simp [updateFirst, hpa, ih h]

theorem updateFirst_fix (l : List Medicine) (p : Medicine → Bool)
    (f : Medicine → Medicine) (r : Medicine) (h : l.find? p = some r) (hf : f r = r) :
    updateFirst l p f = (l, 1, 0) := by
  induction l with
  | nil => simp [List.find?] at h
  | cons a as ih =>
    cases hpa : p a with
    | true =>
      rw [List.find?_cons_of_pos _ hpa] at h
      obtain rfl : a = r := by injection h
      simp [updateFirst, hpa, hf]
    | false =>
      rw [List.find?_cons_of_neg _ (by simp [hpa])] at h
      simp [updateFirst, hpa, ih h]

theorem save_edited_crash (userId medId : Nat) (u : UpdateMap) (store : List Medicine)
    (chat msg : Option Nat) (inl : Option Str)
    (h : findMed store medId userId = none) :
    save_edited_medicine userId medId u store chat msg inl
      = Except.error PyExn.attributeError := by
  simp [save_edited_medicine, h]

theorem save_edited_found (userId medId : Nat) (u : UpdateMap) (store : List Medicine)
    (chat msg : Option Nat) (inl : Option Str) (r : Medicine)
    (hne : u.isEmptyUpd = false) (h : findMed store medId userId = some r) :
    save_edited_medicine userId medId u store chat msg inl
      = Except.ok (none,
          (updateFirst store (fun x => x.id == medId && x.addedBy == userId)
            (applyUpdate u)).1,
          [Screen.detailView medId chat msg inl]) := by
  have hm := updateFirst_matched store
    (fun x => x.id == medId && x.addedBy == userId) (applyUpdate u) r h
  simp only [save_edited_medicine, h, hne, Bool.false_eq_true, if_false]
  rw [if_neg (by rw [hm]; omega)]
  split_ifs <;> rfl

theorem save_new_fst (userId newId : Nat) (cd : ConvData) (store : List Medicine)
    (chat msg : Option Nat) :
    (save_new_medicine userId newId cd store chat msg).1 = none := by
  unfold save_new_medicine
  repeat' split
  all_goals rfl

theorem validate_nonempty (field : MedField) (input : Str) (parsedDate : Option Nat)
    (today userId medId : Nat) (store : List Medicine) (u : UpdateMap)
    (h : validateNewValue field input parsedDate today userId medId store = some u) :
    u.isEmptyUpd = false := by
  cases field with
  | name =>
    simp only [validateNewValue] at h
    split_ifs at h
    obtain rfl : _ = u := by injection h
    rfl
  | quantity =>
    simp only [validateNewValue] at h
    split_ifs at h
    obtain rfl : _ = u := by injection h
    rfl
  | notes =>
    simp only [validateNewValue] at h
    split_ifs at h
    obtain rfl : _ = u := by injection h
    rfl
  | expDate =>
    simp only [validateNewValue] at h
    cases parsedDate with
    | none => exact absurd h (by simp)
    | some d =>
      simp only [] at h
      split_ifs at h
      obtain rfl : _ = u := by injection h
      rfl

theorem filledStr_iff (o : Option Str) : filledStr o = true ↔ ∃ s, o = some s ∧ s ≠ [] := by
  cases o <;> simp [filledStr]

theorem dupKey_iff (store : List Medicine) (doc : Medicine) :
    dupKey store doc = true ↔
      ∃ r ∈ store, r.addedBy = doc.addedBy ∧ r.nameLower = doc.nameLower := by
  simp [dupKey, List.any_eq_true, Bool.and_eq_true, beq_iff_eq]

/-- Claim C1: per user and lowercased name there is at most one record: the
insert is guarded atomically by the compound unique index, so an insert
succeeds exactly when no record with the same `(added_by, name_lower)` key
exists (and then preserves the uniqueness invariant), a second insert of the
same key fails with `DuplicateKey`, and the add flow surfaces that failure
as a duplicate error, leaving the store unchanged and the conversation
cleared. -/
theorem claim_C1 (store s2 : List Medicine) (doc : Medicine) (userId newId : Nat)
    (cd : ConvData) (chatId msgId : Option Nat) (nl : Str) :
    (insert_one store doc = Except.ok s2 →
      s2 = store ++ [doc] ∧
        ∀ r ∈ store, ¬(r.addedBy = doc.addedBy ∧ r.nameLower = doc.nameLower)) ∧
    ((∃ r ∈ store, r.addedBy = doc.addedBy ∧ r.nameLower = doc.nameLower) →
      insert_one store doc = Except.error DbError.duplicateKey) ∧
    (ownerNameUnique store → insert_one store doc = Except.ok s2 → ownerNameUnique s2) ∧
    (add_data_complete cd = true → cd.nameLower = some nl →
      (∃ r ∈ store, r.addedBy = userId ∧ r.nameLower = nl) →
      save_new_medicine userId newId cd store chatId msgId
        = (none, store, noticeScreens Notice.duplicateKey chatId msgId)) := by
  refine ⟨?_, ?_, ?_, ?_⟩
  · intro h
    unfold insert_one at h
    by_cases hd : dupKey store doc = true
    · rw [if_pos hd] at h; exact absurd h (by simp)
    · rw [if_neg hd] at h
      have hs : store ++ [doc] = s2 := by injection h
      refine ⟨hs.symm, ?_⟩
      intro r hr hcon
      exact hd ((dupKey_iff store doc).mpr ⟨r, hr, hcon⟩)
  · intro hex
    unfold insert_one
    rw [if_pos ((dupKey_iff store doc).mpr hex)]
  · intro huniq h
    unfold insert_one at h
    by_cases hd : dupKey store doc = true
    · rw [if_pos hd] at h; exact absurd h (by simp)
    · rw [if_neg hd] at h
      have hs : store ++ [doc] = s2 := by injection h
      rw [← hs]
      refine List.pairwise_append.mpr ⟨huniq, List.pairwise_singleton _ _, ?_⟩
      intro a ha b hb
      have hb2 : b = doc := by simpa using hb
      intro hcon
      rw [hb2] at hcon
      exact hd ((dupKey_iff store doc).mpr ⟨a, ha, hcon⟩)
  · intro hcomp hnl hex
    rw [add_data_complete] at hcomp
    simp only [Bool.and_eq_true] at hcomp
    obtain ⟨⟨⟨⟨hn0, hnl0⟩, hq0⟩, hno0⟩, he0⟩ := hcomp
    obtain ⟨n, hn, hnne⟩ := (filledStr_iff _).mp hn0
    obtain ⟨q, hq, hqne⟩ := (filledStr_iff _).mp hq0
    obtain ⟨no, hno, hnone⟩ := (filledStr_iff _).mp hno0
    obtain ⟨e, he⟩ := Option.isSome_iff_exists.mp he0
    have hnlne : nl ≠ [] := by
      obtain ⟨s, hs, hsne⟩ := (filledStr_iff _).mp hnl0
      rw [hnl] at hs
      obtain rfl : nl = s := by injection hs
      exact hsne
    have hdup : dupKey store ⟨newId, userId, n, nl, q, no, e⟩ = true := by
      refine (dupKey_iff _ _).mpr ?_
      obtain ⟨r, hr, hr1, hr2⟩ := hex
      exact ⟨r, hr, hr1, hr2⟩
    simp only [save_new_medicine, hn, hnl, hq, hno, he]
    rw [if_neg (by simp [hnne, hnlne, hqne, hnone])]
    simp [insert_one, hdup]

theorem claim_C1_witness :
    (∃ r ∈ [witMed], r.addedBy = 7 ∧ r.nameLower = ['x']) ∧
    insert_one [witMed] ⟨2, 7, ['y'], ['x'], ['1'], ['-'], 5⟩
      = Except.error DbError.duplicateKey ∧
    add_data_complete wcdC1 = true ∧
    save_new_medicine 7 99 wcdC1 [witMed] (some 1) (some 2)
      = (none, [witMed], noticeScreens Notice.duplicateKey (some 1) (some 2)) :=
  ⟨⟨witMed, by decide, by decide, by decide⟩,
    (claim_C1 [witMed] [] ⟨2, 7, ['y'], ['x'], ['1'], ['-'], 5⟩ 7 99 wcdC1
      (some 1) (some 2) ['x']).2.1 ⟨witMed, by decide, by decide, by decide⟩,
    by decide,
    (claim_C1 [witMed] [] ⟨2, 7, ['y'], ['x'], ['1'], ['-'], 5⟩ 7 99 wcdC1
      (some 1) (some 2) ['x']).2.2.2 (by decide) rfl
      ⟨witMed, by decide, by decide, by decide⟩⟩

/-- Claim C2 counterexample: the query `"aб"` mixes Latin and Cyrillic
characters, yet `transliterate` returns it unchanged, so the inline search
builds only one candidate string — no second (transliterated) candidate is
produced for a mixed-script query, contrary to the claim. -/
theorem claim_C2_counterexample :
    isRuStr ['a', 'б'] = true ∧ isEnStr ['a', 'б'] = true ∧
    transliterate ['a', 'б'] = ['a', 'б'] ∧
    search_conditions ['a', 'б'] = [['a', 'б']] ∧
    (search_conditions ['a', 'б']).length = 1 := by decide

/-- Claim C2 (amended): the transliteration pass produces a second candidate
exactly when the transliterated form differs from the normalized query,
which can happen only for a query purely in one script — a query mixing
Cyrillic and Latin characters (or containing neither alphabet) is returned
unchanged and yields no second candidate; the search matches `name_lower`
against the original or the transliterated candidate via substring
containment, scoped to the requesting user (shown both for a cross-script
and for a direct-script concrete query). -/
theorem claim_C2 (q : Str) (userId : Nat) (store : List Medicine) (r : Medicine) :
    (isRuStr q = isEnStr q → transliterate q = q ∧ search_conditions q = [q]) ∧
    (transliterate q ≠ q →
      search_conditions q = [q, transliterate q] ∧ isRuStr q ≠ isEnStr q) ∧
    (r ∈ inline_search_matches userId q store ↔
      r ∈ store ∧ r.addedBy = userId ∧
        ∃ c ∈ search_conditions q, containsSub c r.nameLower = true) ∧
    search_conditions ['a', 's', 'p'] = [['a', 's', 'p'], ['а', 'с', 'п']] ∧
    inline_search_matches 7 ['a', 's', 'p'] [aspirinRec] = [aspirinRec] ∧
    inline_search_matches 7 ['а', 'с', 'п'] [aspirinRec] = [aspirinRec] := by
  have htr : isRuStr q = isEnStr q → transliterate q = q := by
    intro h
    unfold transliterate
    rw [h]
    simp
  refine ⟨?_, ?_, ?_, by decide, by decide, by decide⟩
  · intro h
    have h1 := htr h
    exact ⟨h1, by simp [search_conditions, h1]⟩
  · intro hne
    refine ⟨by simp [search_conditions, hne], ?_⟩
    intro heq
    exact hne (htr heq)
  · simp only [inline_search_matches, List.mem_filter, medicine_matches_query,
      Bool.and_eq_true, beq_iff_eq, List.any_eq_true]

theorem claim_C2_witness :
    isRuStr ['a', 'б'] = isEnStr ['a', 'б'] ∧
    (transliterate ['a', 'б'] = ['a', 'б'] ∧ search_conditions ['a', 'б'] = [['a', 'б']]) :=
  ⟨by decide, (claim_C2 ['a', 'б'] 0 [] witMed).1 (by decide)⟩

/-- Claim C4: the barcode parser result is the sorted, de-duplicated list of
the extracted names, and the photo handler's `min(..., key=len)` selection
picks a name of minimal length which, among the equal-shortest names, is the
lexicographically first one — a deterministic tie-break. -/
theorem claim_C4 (names : List Str) (h : names ≠ []) :
    (parse_barcode_names names).Pairwise lexLtRel ∧
    (∀ a, a ∈ parse_barcode_names names ↔ a ∈ names) ∧
    ∃ m, photo_select_name (parse_barcode_names names) = some m ∧
      m ∈ names ∧ (∀ x ∈ names, m.length ≤ x.length) ∧
      (∀ x ∈ names, x.length = m.length → lexLe m x = true) := by
  have hpw := pairwise_dedupSort names
  have hmem := mem_dedupSort names
  have hne2 : dedupSort names ≠ [] := by
    cases names with
    | nil => exact absurd rfl h
    | cons a as =>
      intro hcon
      have ha : a ∈ dedupSort (a :: as) := (mem_dedupSort _ a).mpr (List.mem_cons_self a as)
      rw [hcon] at ha
      simp at ha
  rcases minByLen_spec (dedupSort names) hpw hne2 with ⟨m, hm, hmemm, hmin, htie⟩
  refine ⟨hpw, fun a => hmem a, m, hm, (hmem m).mp hmemm, ?_, ?_⟩
  · intro x hx
    exact hmin x ((hmem x).mpr hx)
  · intro x hx hlen
    exact htie x ((hmem x).mpr hx) hlen

theorem claim_C4_witness :
    ([['b', 'b'], ['a', 'a'], ['c']] : List Str) ≠ [] ∧
    ((parse_barcode_names [['b', 'b'], ['a', 'a'], ['c']]).Pairwise lexLtRel ∧
      (∀ a, a ∈ parse_barcode_names [['b', 'b'], ['a', 'a'], ['c']] ↔
        a ∈ ([['b', 'b'], ['a', 'a'], ['c']] : List Str)) ∧
      ∃ m, photo_select_name (parse_barcode_names [['b', 'b'], ['a', 'a'], ['c']]) = some m ∧
        m ∈ ([['b', 'b'], ['a', 'a'], ['c']] : List Str) ∧
        (∀ x ∈ ([['b', 'b'], ['a', 'a'], ['c']] : List Str), m.length ≤ x.length) ∧
        (∀ x ∈ ([['b', 'b'], ['a', 'a'], ['c']] : List Str),
          x.length = m.length → lexLe m x = true)) :=
  ⟨by decide, claim_C4 [['b', 'b'], ['a', 'a'], ['c']] (by decide)⟩

/-- Claim C5: the daily sweep's "expiring soon" section contains exactly the
user's records with `today ≤ exp_date ≤ today + 30`, sorted by expiry
ascending, and its "expired" section exactly those with `exp_date < today`,
also sorted ascending; in the concrete scenario run at today = 100, records
at 100 and 129 (today and today+29) land in "expiring soon" in that order,
the record at 99 (yesterday) lands in "expired", and the record at 131
(today+31) appears in neither. -/
theorem claim_C5 (store : List Medicine) (userId today : Nat) (r : Medicine) :
    (r ∈ daily_reminder_soon store userId today ↔
      r ∈ store ∧ r.addedBy = userId ∧ today ≤ r.expDate ∧ r.expDate ≤ today + 30) ∧
    List.Sorted expLe (daily_reminder_soon store userId today) ∧
    (r ∈ daily_reminder_expired store userId today ↔
      r ∈ store ∧ r.addedBy = userId ∧ r.expDate < today) ∧
    List.Sorted expLe (daily_reminder_expired store userId today) ∧
    daily_reminder_soon [med100, med129, med131, med99] 7 100 = [med100, med129] ∧
    daily_reminder_expired [med100, med129, med131, med99] 7 100 = [med99] ∧
    med131 ∉ daily_reminder_soon [med100, med129, med131, med99] 7 100 ∧
    med131 ∉ daily_reminder_expired [med100, med129, med131, med99] 7 100 := by
  refine ⟨?_, ?_, ?_, ?_, by decide, by decide, by decide, by decide⟩
  · simp only [daily_reminder_soon, List.mem_insertionSort, List.mem_filter,
      Bool.and_eq_true, beq_iff_eq, decide_eq_true_eq, days_threshold]
    tauto
  · exact List.sorted_insertionSort expLe _
  · simp only [daily_reminder_expired, List.mem_insertionSort, List.mem_filter,
      Bool.and_eq_true, beq_iff_eq, decide_eq_true_eq]
  · exact List.sorted_insertionSort expLe _

/-- Claim C3 counterexample: editing the quantity of record id 42 (bound to
ordinary message (1, 2)) with a successfully validated new value, when the
record is absent from the store, makes the handler raise an uncaught
`AttributeError` (`current_med.get` on the `None` returned by `find_one`)
before the repository update is even called — the conversation context is
not destroyed and no detail view (nor anything else) is rendered, refuting
the claim's asserted NotFound behavior. -/
theorem claim_C3_counterexample :
    findMed [] 42 7 = none ∧
    validateNewValue MedField.quantity ['5'] none 0 7 42 []
      = some { quantity := some ['5'] } ∧
    process_new_value_text 7 cexEditCd ['5'] none 0 []
      = Except.error PyExn.attributeError := by decide

/-- Claim C3 (amended): in the edit-field flow, for every successfully
validated new value whose target record is present, the engine calls the
repository update, destroys the conversation context, and both the changed
and the no-op/no-change outcomes render the record's detail view at the
bound message identity; when the target record is missing, the handler
instead raises an uncaught `AttributeError` before calling the update,
leaving the conversation context intact and rendering nothing (the coded
`matched_count == 0` branch is unreachable without a concurrent delete
between the lookup and the update). -/
theorem claim_C3 (userId today : Nat) (cd : ConvData) (input : Str)
    (parsedDate : Option Nat) (store : List Medicine) (medId : Nat) (field : MedField)
    (u : UpdateMap)
    (h1 : cd.medId = some medId) (h2 : cd.fieldToEdit = some field)
    (h3 : filledStr cd.medName = true)
    (h4 : (cd.promptChat.isSome && (cd.calendarMsg <|> cd.promptMsg).isSome ||
      cd.inlineMsg.isSome) = true)
    (h5 : validateNewValue field input parsedDate today userId medId store = some u) :
    (∀ r, findMed store medId userId = some r →
      process_new_value_text userId cd input parsedDate today store
        = Except.ok (none,
            (updateFirst store (fun x => x.id == medId && x.addedBy == userId)
              (applyUpdate u)).1,
            [Screen.detailView medId cd.promptChat (cd.calendarMsg <|> cd.promptMsg)
              cd.inlineMsg])) ∧
    (findMed store medId userId = none →
      process_new_value_text userId cd input parsedDate today store
        = Except.error PyExn.attributeError) := by
  have hne := validate_nonempty field input parsedDate today userId medId store u h5
  have hred : process_new_value_text userId cd input parsedDate today store
      = save_edited_medicine userId medId u store cd.promptChat
          (cd.calendarMsg <|> cd.promptMsg) cd.inlineMsg := by
    simp only [process_new_value_text, h1, h2]
    rw [if_pos (by simp [h3, h4]), h5]
  refine ⟨?_, ?_⟩
  · intro r hr
    rw [hred]
    exact save_edited_found userId medId u store cd.promptChat
      (cd.calendarMsg <|> cd.promptMsg) cd.inlineMsg r hne hr
  · intro hnone
    rw [hred]
    exact save_edited_crash userId medId u store cd.promptChat
      (cd.calendarMsg <|> cd.promptMsg) cd.inlineMsg hnone

theorem claim_C3_witness :
    validateNewValue MedField.quantity ['5'] none 0 7 42 [med42]
      = some { quantity := some ['5'] } ∧
    findMed [med42] 42 7 = some med42 ∧
    process_new_value_text 7 cexEditCd ['5'] none 0 [med42]
      = Except.ok (none,
          (updateFirst [med42] (fun x => x.id == 42 && x.addedBy == 7)
            (applyUpdate { quantity := some ['5'] })).1,
          [Screen.detailView 42 (some 1) (some 2) none]) :=
  ⟨by decide, by decide,
    (claim_C3 7 0 cexEditCd ['5'] none [med42] 42 MedField.quantity
      { quantity := some ['5'] } rfl rfl (by decide) (by decide) (by decide)).1
      med42 (by decide)⟩

/-- Claim C6: with page size 5, the list keyboard's page `p` shows exactly
the records at positions `(p-1)*5` through `min(p*5, total) - 1` of the
user's list, shows the "prev" control exactly when `p > 1`, and shows the
"next" control exactly when `p < ceil(total/5)`. -/
theorem claim_C6 (medicines : List Medicine) (p : Nat) (_hp : 1 ≤ p) :
    (∀ i : Nat, i < 5 →
      (get_medicine_list_keyboard medicines p).pageItems[i]?
        = medicines[(p - 1) * 5 + i]?) ∧
    (∀ i : Nat, 5 ≤ i → (get_medicine_list_keyboard medicines p).pageItems[i]? = none) ∧
    ((get_medicine_list_keyboard medicines p).hasPrevButton = true ↔ 1 < p) ∧
    ((get_medicine_list_keyboard medicines p).hasNextButton = true ↔
      p < (medicines.length + 4) / 5) := by
  refine ⟨?_, ?_, ?_, ?_⟩
  · intro i hi
    simp only [get_medicine_list_keyboard, MEDS_PER_PAGE]
    rw [List.getElem?_take_of_lt hi, List.getElem?_drop]
  · intro i hi
    simp only [get_medicine_list_keyboard, MEDS_PER_PAGE]
    exact List.getElem?_eq_none (le_trans (List.length_take_le _ _) hi)
  · simp [get_medicine_list_keyboard]
  · have h45 : medicines.length + 5 - 1 = medicines.length + 4 := by omega
    simp [get_medicine_list_keyboard, MEDS_PER_PAGE, h45]

theorem claim_C6_witness :
    1 ≤ 2 ∧
    ((∀ i : Nat, i < 5 →
      (get_medicine_list_keyboard (List.replicate 12 witMed) 2).pageItems[i]?
        = (List.replicate 12 witMed)[(2 - 1) * 5 + i]?) ∧
    (∀ i : Nat, 5 ≤ i →
      (get_medicine_list_keyboard (List.replicate 12 witMed) 2).pageItems[i]? = none) ∧
    ((get_medicine_list_keyboard (List.replicate 12 witMed) 2).hasPrevButton = true ↔
      1 < 2) ∧
    ((get_medicine_list_keyboard (List.replicate 12 witMed) 2).hasNextButton = true ↔
      2 < ((List.replicate 12 witMed).length + 4) / 5)) :=
  ⟨by decide, claim_C6 (List.replicate 12 witMed) 2 (by decide)⟩

/-- Claim C7: in `WaitingExpiry`, typed input that fails to parse and parsed
or calendar-selected dates strictly before today are rejected with a
re-prompt or transient notice, leaving the state `WaitingExpiry`, the
conversation data, and the record store unchanged; a typed date equal to
today passes validation and proceeds to the commit step (which exits the
state). -/
theorem claim_C7 (userId newId today d : Nat) (cd : ConvData) (store : List Medicine)
    (fsm : Option FlowState) :
    (process_medicine_exp_date_text userId newId cd none today store
      = (some FlowState.waitingExpDate, cd, store,
          [Screen.noticeReply Notice.invalidDateFormat])) ∧
    (d < today →
      process_medicine_exp_date_text userId newId cd (some d) today store
        = (some FlowState.waitingExpDate, cd, store, [Screen.noticeReply Notice.datePast])) ∧
    (d < today →
      handle_date_select userId newId d today fsm cd store
        = Except.ok (fsm, cd, store, [Screen.noticeReply Notice.datePast])) ∧
    (process_medicine_exp_date_text userId newId cd (some today) today store).1 = none := by
  refine ⟨rfl, ?_, ?_, ?_⟩
  · intro h
    simp [process_medicine_exp_date_text, h]
  · intro h
    simp [handle_date_select, h]
  · simp only [process_medicine_exp_date_text]
    rw [if_neg (lt_irrefl today)]
    exact save_new_fst userId newId { cd with expDate := some today } store
      cd.promptChat cd.calendarMsg

theorem claim_C7_witness :
    (3 < 5) ∧
    process_medicine_exp_date_text 7 99 ({} : ConvData) (some 3) 5 [witMed]
      = (some FlowState.waitingExpDate, {}, [witMed], [Screen.noticeReply Notice.datePast]) ∧
    handle_date_select 7 99 3 5 (some FlowState.waitingExpDate) ({} : ConvData) [witMed]
      = Except.ok (some FlowState.waitingExpDate, {}, [witMed],
          [Screen.noticeReply Notice.datePast]) :=
  ⟨by decide,
    (claim_C7 7 99 5 3 {} [witMed] (some FlowState.waitingExpDate)).2.1 (by decide),
    (claim_C7 7 99 5 3 {} [witMed] (some FlowState.waitingExpDate)).2.2.1 (by decide)⟩

/-- Claim C8: resubmitting an edit whose validated new value equals the
stored value is not an error — the update matches the record
(`matched_count = 1`) but changes nothing (`modified_count = 0`), the store
is unchanged, the conversation context is cleared, and the record's detail
view is still rendered. -/
theorem claim_C8 (userId medId : Nat) (u : UpdateMap) (store : List Medicine)
    (chat msg : Option Nat) (inl : Option Str) (r : Medicine)
    (h1 : u.isEmptyUpd = false)
    (h2 : findMed store medId userId = some r)
    (h3 : applyUpdate u r = r) :
    save_edited_medicine userId medId u store chat msg inl
      = Except.ok (none, store, [Screen.detailView medId chat msg inl]) ∧
    (updateFirst store (fun x => x.id == medId && x.addedBy == userId)
      (applyUpdate u)).2.1 = 1 ∧
    (updateFirst store (fun x => x.id == medId && x.addedBy == userId)
      (applyUpdate u)).2.2 = 0 := by
  have h4 := updateFirst_fix store (fun x => x.id == medId && x.addedBy == userId)
    (applyUpdate u) r h2 h3
  refine ⟨?_, by rw [h4], by rw [h4]⟩
  simp [save_edited_medicine, h1, h2, h4]

theorem claim_C8_witness :
    witUpd.isEmptyUpd = false ∧
    findMed [witMed] 1 7 = some witMed ∧
    applyUpdate witUpd witMed = witMed ∧
    save_edited_medicine 7 1 witUpd [witMed] (some 1) (some 2) none
      = Except.ok (none, [witMed], [Screen.detailView 1 (some 1) (some 2) none]) :=
  ⟨by decide, by decide, by decide,
    (claim_C8 7 1 witUpd [witMed] (some 1) (some 2) none witMed
      (by decide) (by decide) (by decide)).1⟩

/-- Claim C9: from every non-terminal state, an explicit cancel (the
`/cancel` command or typed keyword, handled by `cancel_handler`, or the
cancel button, handled by `cancel_action_callback`) destroys the
conversation context, performs no repository write, and restores a main-menu
rendering at whichever message identity was bound (inline token first, else
the bound ordinary message). -/
theorem claim_C9 (fsm : Option FlowState) (cd : ConvData) (store : List Medicine)
    (cbChat cbMsg : Option Nat) (cbInline : Option Str) (h : fsm ≠ none) :
    ((cancel_handler fsm cd store).1 = none ∧ (cancel_handler fsm cd store).2.1 = store) ∧
    ((cancel_action_callback fsm cd cbChat cbMsg cbInline store).1 = none ∧
      (cancel_action_callback fsm cd cbChat cbMsg cbInline store).2.1 = store) ∧
    (∀ t, cd.inlineMsg = some t →
      (cancel_handler fsm cd store).2.2 = [Screen.mainMenuInline t] ∧
      (cancel_action_callback fsm cd cbChat cbMsg cbInline store).2.2
        = [Screen.mainMenuInline t]) ∧
    (∀ c m, cd.inlineMsg = none → cd.promptChat = some c →
      (cd.calendarMsg <|> cd.promptMsg) = some m →
      (cancel_handler fsm cd store).2.2 = [Screen.mainMenuAt c m] ∧
      (cancel_action_callback fsm cd cbChat cbMsg cbInline store).2.2
        = [Screen.mainMenuAt c m]) := by
  obtain ⟨s, rfl⟩ := Option.ne_none_iff_exists'.mp h
  refine ⟨⟨?_, ?_⟩, ⟨?_, ?_⟩, ?_, ?_⟩
  · simp only [cancel_handler]
    repeat' split
    all_goals rfl
  · simp only [cancel_handler]
    repeat' split
    all_goals rfl
  · simp only [cancel_action_callback]
    repeat' split
    all_goals rfl
  · simp only [cancel_action_callback]
    repeat' split
    all_goals rfl
  · intro t hin
    constructor
    · simp [cancel_handler, hin]
    · simp [cancel_action_callback, hin]
  · intro c m hin hc hm
    constructor
    · simp [cancel_handler, hin, hc, hm]
    · simp [cancel_action_callback, hin, hc, hm]

theorem claim_C9_witness :
    (some FlowState.waitingQuantity ≠ (none : Option FlowState)) ∧
    cexEditCd.inlineMsg = none ∧ cexEditCd.promptChat = some 1 ∧
    (cexEditCd.calendarMsg <|> cexEditCd.promptMsg) = some 2 ∧
    ((cancel_handler (some FlowState.waitingQuantity) cexEditCd [witMed]).1 = none ∧
      (cancel_handler (some FlowState.waitingQuantity) cexEditCd [witMed]).2.1 = [witMed]) ∧
    (cancel_handler (some FlowState.waitingQuantity) cexEditCd [witMed]).2.2
      = [Screen.mainMenuAt 1 2] ∧
    (cancel_action_callback (some FlowState.waitingNewValue) cexEditCd none none none
      [witMed]).2.2 = [Screen.mainMenuAt 1 2] :=
  ⟨by decide, rfl, rfl, rfl,
    (claim_C9 (some FlowState.waitingQuantity) cexEditCd [witMed] none none none
      (by decide)).1,
    ((claim_C9 (some FlowState.waitingQuantity) cexEditCd [witMed] none none none
      (by decide)).2.2.2 1 2 rfl rfl rfl).1,
    ((claim_C9 (some FlowState.waitingNewValue) cexEditCd [witMed] none none none
      (by decide)).2.2.2 1 2 rfl rfl rfl).2⟩

/-- Claim C10: the add-flow commit inserts a record only when all five
accumulated values are present and non-empty; when any is missing or empty
it clears the conversation and leaves the store untouched, so any record the
add flow appends has all five fields present and non-empty. -/
theorem claim_C10 (userId newId : Nat) (cd : ConvData) (store : List Medicine)
    (chat msg : Option Nat) :
    ((save_new_medicine userId newId cd store chat msg).1 = none) ∧
    (add_data_complete cd = false →
      (save_new_medicine userId newId cd store chat msg).2.1 = store) ∧
    ((save_new_medicine userId newId cd store chat msg).2.1 ≠ store →
      add_data_complete cd = true ∧
      ∃ n nl q no e, cd.name = some n ∧ cd.nameLower = some nl ∧ cd.quantity = some q ∧
        cd.notes = some no ∧ cd.expDate = some e ∧ n ≠ [] ∧ nl ≠ [] ∧ q ≠ [] ∧ no ≠ [] ∧
        (save_new_medicine userId newId cd store chat msg).2.1
          = store ++ [⟨newId, userId, n, nl, q, no, e⟩]) := by
  have key : (save_new_medicine userId newId cd store chat msg).2.1 ≠ store →
      add_data_complete cd = true ∧
      ∃ n nl q no e, cd.name = some n ∧ cd.nameLower = some nl ∧ cd.quantity = some q ∧
        cd.notes = some no ∧ cd.expDate = some e ∧ n ≠ [] ∧ nl ≠ [] ∧ q ≠ [] ∧ no ≠ [] ∧
        (save_new_medicine userId newId cd store chat msg).2.1
          = store ++ [⟨newId, userId, n, nl, q, no, e⟩] := by
    intro hchanged
    rcases hn : cd.name with _ | n
    · rw [show save_new_medicine userId newId cd store chat msg
        = (none, store, noticeScreens Notice.incompleteData chat msg) by
          simp [save_new_medicine, hn]] at hchanged
      exact absurd rfl hchanged
    rcases hnl : cd.nameLower with _ | nl
    · rw [show save_new_medicine userId newId cd store chat msg
        = (none, store, noticeScreens Notice.incompleteData chat msg) by
          simp [save_new_medicine, hn, hnl]] at hchanged
      exact absurd rfl hchanged
    rcases hq : cd.quantity with _ | q
    · rw [show save_new_medicine userId newId cd store chat msg
        = (none, store, noticeScreens Notice.incompleteData chat msg) by
          simp [save_new_medicine, hn, hnl, hq]] at hchanged
      exact absurd rfl hchanged
    rcases hno : cd.notes with _ | no
    · rw [show save_new_medicine userId newId cd store chat msg
        = (none, store, noticeScreens Notice.incompleteData chat msg) by
          simp [save_new_medicine, hn, hnl, hq, hno]] at hchanged
      exact absurd rfl hchanged
    rcases he : cd.expDate with _ | e
    · rw [show save_new_medicine userId newId cd store chat msg
        = (none, store, noticeScreens Notice.incompleteData chat msg) by
          simp [save_new_medicine, hn, hnl, hq, hno, he]] at hchanged
      exact absurd rfl hchanged
    have hred : save_new_medicine userId newId cd store chat msg
        = (if n = [] ∨ nl = [] ∨ q = [] ∨ no = [] then
            (none, store, noticeScreens Notice.incompleteData chat msg)
          else
            match insert_one store ⟨newId, userId, n, nl, q, no, e⟩ with
            | Except.ok s2 => (none, s2, listScreens chat msg)
            | Except.error _ =>
              (none, store, noticeScreens Notice.duplicateKey chat msg)) := by
      simp only [save_new_medicine, hn, hnl, hq, hno, he]
    by_cases hemp : n = [] ∨ nl = [] ∨ q = [] ∨ no = []
    · rw [hred, if_pos hemp] at hchanged
      exact absurd rfl hchanged
    · rw [hred, if_neg hemp] at hchanged ⊢
      push_neg at hemp
      obtain ⟨he1, he2, he3, he4⟩ := hemp
      cases hins : insert_one store ⟨newId, userId, n, nl, q, no, e⟩ with
      | ok s2 =>
        have hs2 : s2 = store ++ [⟨newId, userId, n, nl, q, no, e⟩] := by
          unfold insert_one at hins
          split_ifs at hins
          injection hins with hh
          exact hh.symm
        refine ⟨by simp [add_data_complete, hn, hnl, hq, hno, he, filledStr,
            he1, he2, he3, he4], n, nl, q, no, e, rfl, rfl, rfl, rfl, rfl,
            he1, he2, he3, he4, hs2⟩
      | error er =>
        rw [hins] at hchanged
        exact absurd rfl hchanged
  refine ⟨save_new_fst userId newId cd store chat msg, ?_, key⟩
  intro hfalse
  by_contra hne
  rcases key hne with ⟨htrue, _⟩
  rw [hfalse] at htrue
  exact Bool.false_ne_true htrue

theorem claim_C10_witness :
    add_data_complete ({} : ConvData) = false ∧
    (save_new_medicine 7 99 ({} : ConvData) [witMed] (some 1) (some 2)).1 = none ∧
    (save_new_medicine 7 99 ({} : ConvData) [witMed] (some 1) (some 2)).2.1 = [witMed] :=
  ⟨by decide,
    (claim_C10 7 99 {} [witMed] (some 1) (some 2)).1,
    (claim_C10 7 99 {} [witMed] (some 1) (some 2)).2.1 (by decide)⟩
